import Mathlib

set_option linter.unusedVariables false

/-!
Verification of the credential-generator core: a shallow embedding of the
ontology-normalization, shape-composition and proof-chain-signing modules,
with theorems settling the behavioural claims about them.

JavaScript objects are modelled as association lists of string keys; JS
object-spread and property assignment are modelled by `setKey`/`spread`;
property reads by `alookup` (first matching key, as JS objects have unique
keys).  JS details the code relies on (truthiness, `undefined`) are modelled
explicitly (`jsTruthyV`, `Option`).
-/

/-- A JSON-like value, as stored in JS objects handled by the generator. -/
inductive Value where
  | str (s : String)
  | num (n : Int)
  | boolV (b : Bool)
  | nullV
  | obj (fields : List (String × Value))

section AssocOps

variable {β : Type}

/-- JS property write `m[k] = v`: replace the binding if the key exists, else append. -/
def setKey (m : List (String × β)) (k : String) (v : β) : List (String × β) :=
  if m.any (fun kv => kv.1 = k) then
    m.map (fun kv => if kv.1 = k then (k, v) else kv)
  else
    m ++ [(k, v)]

/-- JS property read `m[k]` (first binding wins; JS objects have unique keys). -/
def alookup (k : String) : List (String × β) → Option β
  | [] => none
  | kv :: rest => if kv.1 = k then some kv.2 else alookup k rest

/-- JS object spread: bindings of `b` overwrite bindings of `a`. -/
def spread (a b : List (String × β)) : List (String × β) :=
  b.foldl (fun acc kv => setKey acc kv.1 kv.2) a

end AssocOps

/-- JS truthiness of a value (`if (x)`). -/
def jsTruthyV : Value → Bool
  | .str s => decide (s ≠ "")
  | .num n => decide (n ≠ 0)
  | .boolV b => b
  | .nullV => false
  | .obj _ => true

/-- JS truthiness of a possibly-`undefined` value. -/
def jsTruthyO : Option Value → Bool
  | none => false
  | some v => jsTruthyV v

/-- JS truthiness of a possibly-`undefined` string. -/
def jsTruthyS : Option String → Bool
  | none => false
  | some s => decide (s ≠ "")

/-- JS `value.trim() !== ""`: the string contains a non-whitespace character
(stated over the character list, since Lean's `String.trim` is defined by
well-founded recursion and does not evaluate inside proofs). -/
def trimNonempty (s : String) : Bool :=
  s.data.any (fun c => !c.isWhitespace)

/-- Whether the character list starting here begins with the pattern. -/
def charsStartWith : List Char → List Char → Bool
  | _, [] => true
  | [], _ :: _ => false
  | a :: as, b :: bs => a == b && charsStartWith as bs

/-- Substring containment on character lists. -/
def charsContain : List Char → List Char → Bool
  | [], pat => pat.isEmpty
  | s :: rest, pat => charsStartWith (s :: rest) pat || charsContain rest pat

/-!
## SelfDescriptionModule: ontology normalization and shape composition
Shallow embedding of `src/modules/SelfDescriptionModule.js`.
-/

/-- A collectable property constraint, as produced per property by
`formatTagusProperties` / `formatLoireAttributes`. -/
structure PropertyConstraint where
  description : String
  range : String
  required : Bool
deriving Repr, DecidableEq

/-- The per-type entry of `typesAndProperties`: collectable properties plus
pre-assigned (`sh:hasValue` or auto-assigned) properties. -/
structure ShapeEntry where
  properties : List (String × PropertyConstraint)
  preAssignedProperties : List (String × Value)

/-- The `PROPERTY_DESCRIPTION_OVERRIDES` table in `formatTagusProperties`. -/
def propertyDescriptionOverrides : List (String × String) :=
  [("gx:assignedTo",
    "The UUID of the service offering self-description to which the label level is assigned."),
   ("gx:providedBy",
    "The DID of the legal participant self-description that provides the service offering."),
   ("gx:maintainedBy",
    "The DID of participant maintaining the resource in operational condition."),
   ("gx:hostedOn",
    "The UUID of the resource where the process is located (physical server, datacenter, availability zone)."),
   ("gx:instanceOf",
    "The UUID A virtual resource (normally a software resource) this process is an instance of."),
   ("gx:tenantOwnedBy",
    "The UUID of participant with contractual relation with the resource")]

/-- The `REQUIRED_PROPERTIES_OVERRIDE` list in `formatTagusProperties`. -/
def requiredPropertiesOverride : List String :=
  ["gx:name", "gx:host", "gx:protocol", "gx:version", "gx:port", "gx:openAPI"]

/-- The `autoAssignedProperties` list in `formatTagusProperties`: properties never asked
from the user (always derived by cross-shape wiring). -/
def autoAssignedProperties : List String :=
  ["gx:assignedTo", "gx:exposedThrough", "gx:instanceOf", "gx:hostedOn",
   "gx:serviceAccessPoint"]

/-- One SHACL property node, holding exactly the fields `formatTagusProperties`
reads: `sh:path.@id`, `sh:hasValue`, `sh:description`, `sh:datatype.@id`,
`sh:minCount`. -/
structure TagusProperty where
  path : String
  hasValue : Option Value
  description : Option String
  datatype : Option String
  minCount : Option Int

/-- The collectable-property branch of the `forEach` in `formatTagusProperties`
(description default and override, range from `sh:datatype`, required from the
override list or `sh:minCount === 1`).  JS `||` picks the fallback on the empty
string too; JS `String.replace` replaces the first occurrence, which for the
`xsd:`-prefixed datatypes used here coincides with `String.replace` in Lean. -/
def formatTagusCollectable (acc : ShapeEntry) (property : TagusProperty)
    (propertyName : String) : ShapeEntry :=
  let descriptionRaw :=
    match property.description with
    | some d => if d = "" then propertyName else d
    | none => propertyName
  let description :=
    match alookup propertyName propertyDescriptionOverrides with
    | some d => d
    | none => descriptionRaw
  let range :=
    match property.datatype with
    | some dt => (dt.replace "xsd:" "").toLower
    | none => "string"
  let required :=
    requiredPropertiesOverride.contains propertyName || property.minCount == some 1
  { acc with properties := setKey acc.properties propertyName ⟨description, range, required⟩ }

/-- One iteration of the `properties.forEach` in `formatTagusProperties`:
auto-assigned names go to `preAssignedProperties` with the `"PREASSIGNED"`
placeholder; truthy `sh:hasValue` goes to `preAssignedProperties`; everything
else becomes a collectable constraint. -/
def formatTagusStep (acc : ShapeEntry) (property : TagusProperty) : ShapeEntry :=
  let propertyName := property.path
  if autoAssignedProperties.contains propertyName then
    let pre := setKey acc.preAssignedProperties propertyName (Value.str "PREASSIGNED")
    { acc with preAssignedProperties := pre }
  else
    match property.hasValue with
    | some hv =>
      if jsTruthyV hv then
        let pre := setKey acc.preAssignedProperties propertyName hv
        { acc with preAssignedProperties := pre }
      else formatTagusCollectable acc property propertyName
    | none => formatTagusCollectable acc property propertyName

/-- Model of `formatTagusProperties` of `SelfDescriptionModule`. -/
def formatTagusProperties (properties : List TagusProperty) : ShapeEntry :=
  properties.foldl formatTagusStep ⟨[], []⟩

/-- One LinkML class attribute, with the fields `formatLoireAttributes` reads. -/
structure LoireAttribute where
  description : Option String
  range : Option String
  required : Option String
  hasValue : Option Value

/-- JS `a || b` on a possibly-`undefined` string. -/
def jsOrS (o : Option String) (dflt : String) : String :=
  match o with
  | some s => if s = "" then dflt else s
  | none => dflt

/-- One iteration of the attribute loop in `formatLoireAttributes`: the
attribute is emitted as a collectable constraint under the `gx:` prefix. -/
def formatLoireStep (acc : List (String × PropertyConstraint))
    (kv : String × LoireAttribute) : List (String × PropertyConstraint) :=
  setKey acc ("gx:" ++ kv.1)
    ⟨jsOrS kv.2.description "", jsOrS kv.2.range "string",
     kv.2.required == some "true"⟩

/-- Model of `formatLoireAttributes` of `SelfDescriptionModule`: every attribute becomes a
collectable constraint under the `gx:` prefix; `preAssignedProperties` is the
object created empty and never written (the local `hasValue` is read but unused
in the source). -/
def formatLoireAttributes (attributes : List (String × LoireAttribute)) : ShapeEntry :=
  { properties := attributes.foldl formatLoireStep [],
    preAssignedProperties := [] }

/-- One LinkML class of the fetched type catalog. -/
structure LoireClass where
  abstract : Option String
  attributes : List (String × LoireAttribute)

/-- Stable insertion of a keyed entry into a key-sorted list. -/
def insertByKey {β : Type} (kv : String × β) : List (String × β) → List (String × β)
  | [] => [kv]
  | kv₀ :: rest => if kv₀.1 ≤ kv.1 then kv₀ :: insertByKey kv rest else kv :: kv₀ :: rest

/-- Stable sort by key, modelling the `localeCompare` sort in `handleLoireVersion`. -/
def sortByKey {β : Type} : List (String × β) → List (String × β)
  | [] => []
  | kv :: rest => insertByKey kv (sortByKey rest)

/-- Model of `handleLoireVersion` of `SelfDescriptionModule` on the already-parsed class
catalog: drop classes with a truthy `abstract` flag (the failsafe YAML schema
yields strings), sort by class name, and format each class's attributes. -/
def handleLoireVersion (classes : List (String × LoireClass)) : List (String × ShapeEntry) :=
  let kept := sortByKey (classes.filter (fun kv => !(jsTruthyS kv.2.abstract)))
  kept.foldl (fun acc kv => setKey acc kv.1 (formatLoireAttributes kv.2.attributes)) []

/-- Observable JS exceptions of the normalization and signing paths. -/
inductive JsError where
  | typeError
deriving Repr, DecidableEq

/-- The `sh:property` field of a shape node: a single object, an array, or absent
(`shapeDetail["sh:property"]` may be any of these). -/
inductive TagusPropSpec where
  | one (p : TagusProperty)
  | many (ps : List TagusProperty)
  | missing

/-- One node of the fetched SHACL shape graph, with the fields
`handleTagusVersion` reads (`@id`, `sh:targetClass?.@id`, `sh:property`). -/
structure TagusShape where
  id : Option String
  targetClass : Option String
  property : TagusPropSpec

/-- JS `String.prototype.includes`: substring containment. -/
def jsIncludes (s sub : String) : Bool :=
  charsContain s.data sub.data

/-- Model of `allShapes.find((s) => s["@id"].includes(shapeName))`: reading `@id` of a
node that lacks it throws a TypeError. -/
def findTagusShapeById (shapeName : String) :
    List TagusShape → Except JsError (Option TagusShape)
  | [] => .ok none
  | s :: rest =>
    match s.id with
    | none => .error .typeError
    | some i =>
      if jsIncludes i shapeName then .ok (some s)
      else findTagusShapeById shapeName rest

/-- Shape lookup in `handleTagusVersion`: the special case for
`ServiceOfferingLabelLevel1` matches on `sh:targetClass` (with optional
chaining, so absent fields do not throw); all other names match by `@id`
inclusion. -/
def findTagusShape (allShapes : List TagusShape) (shapeName : String) :
    Except JsError (Option TagusShape) :=
  if shapeName = "ServiceOfferingLabelLevel1" then
    .ok (allShapes.find? (fun s => s.targetClass == some "gx:ServiceOfferingLabelLevel1"))
  else findTagusShapeById shapeName allShapes

/-- Stable insertion for the string sort. -/
def insertString (s : String) : List String → List String
  | [] => [s]
  | t :: rest => if t ≤ s then t :: insertString s rest else s :: t :: rest

/-- Lexicographic sort, modelling `implementedShapes.sort()`. -/
def sortStrings : List String → List String
  | [] => []
  | s :: rest => insertString s (sortStrings rest)

/-- The `for (const shapeName of implementedShapes)` loop of
`handleTagusVersion`: a missing shape node is skipped with a comment-out
warning; a found node has its `sh:property` normalized to an array (a missing
`sh:property` would make the `forEach` dereference `undefined`, a TypeError)
and formatted. -/
def tagusLoop (allShapes : List TagusShape) :
    List String → List (String × ShapeEntry) → Except JsError (List (String × ShapeEntry))
  | [], acc => .ok acc
  | shapeName :: rest, acc =>
    match findTagusShape allShapes shapeName with
    | .error e => .error e
    | .ok none => tagusLoop allShapes rest acc
    | .ok (some shapeDetail) =>
      match shapeDetail.property with
      | .missing => .error .typeError
      | .one p => tagusLoop allShapes rest (setKey acc shapeName (formatTagusProperties [p]))
      | .many ps => tagusLoop allShapes rest (setKey acc shapeName (formatTagusProperties ps))

/-- Model of `handleTagusVersion` of `SelfDescriptionModule`, over the fetched graph and
the fetched (then sorted) implemented-shapes allow-list. -/
def handleTagusVersion (allShapes : List TagusShape) (implementedShapes : List String) :
    Except JsError (List (String × ShapeEntry)) :=
  tagusLoop allShapes (sortStrings implementedShapes) []

/-- The empty-value filter applied to `collectedProperties` in `generateShape`:
string values that trim to the empty string are dropped, except for
`gx:policy`, which is kept whatever its value; non-string values are always
kept.  (Lean's `String.trim` strips ASCII whitespace, matching JS `trim` on
the whitespace actually produced by the prompt layer.) -/
def filterCollectedProperties (collectedProperties : List (String × Value)) :
    List (String × Value) :=
  collectedProperties.filter (fun kv =>
    if kv.1 = "gx:policy" then true
    else
      match kv.2 with
      | .str s => trimNonempty s
      | _ => true)

/-- The `finalProperties` merge in `generateShape`: the pre-assigned properties spread
first, then the filtered collected properties; in JS object spread the later
entries overwrite the earlier ones. -/
def finalPropertiesOf (preAssignedProperties collectedProperties : List (String × Value)) :
    List (String × Value) :=
  spread preAssignedProperties (filterCollectedProperties collectedProperties)

/-- The `credentialSubject` object literal of `createVcShapeObject`: `id` and
`type` first, then the spread of the merged properties. -/
def credentialSubjectOf (credentialSubjectId type : String)
    (properties : List (String × Value)) : List (String × Value) :=
  spread [("id", Value.str credentialSubjectId), ("type", Value.str ("gx:" ++ type))]
    properties

/-- The SHACL-dialect version token. -/
def tagusVersion : String := "22.10 (Tagus)"

/-- The LinkML-dialect version token. -/
def loireVersion : String := "24.06 (Loire)"

/-- The fixed two-entry `@context` assigned for the Tagus version. -/
def tagusContext : List String :=
  ["https://www.w3.org/2018/credentials/v1",
   "https://registry.lab.gaia-x.eu/development/api/trusted-shape-registry/v1/shapes/jsonld/trustframework#"]

/-- The fixed two-entry `@context` assigned for the Loire version. -/
def loireContext : List String :=
  ["https://www.w3.org/ns/credentials/v2",
   "https://www.w3.org/ns/credentials/examples/v2"]

/-- The fields of `executableParams` read by `createVcShapeObject`. -/
structure ExecutableParams where
  type : String
  ontologyVersion : String
  vcUrl : Option String
  output : Option String
  issuer : Option String

/-- The credential envelope built by `createVcShapeObject`; optional fields
model JS fields that are only conditionally assigned. -/
structure VcShape where
  id : String
  type : List String
  issuer : Option String
  credentialSubject : List (String × Value)
  context : Option (List String)
  issuanceDate : Option String
  validFrom : Option String

/-- Model of `path.basename`: the final path segment. -/
def pathBasename (p : String) : String :=
  (p.splitOn "/").getLastD ""

/-- The `vcUrl`-based id derivation of `createVcShapeObject` (the `output`
check is a JS truthiness check, so an empty `output` falls back to the
`type`-based name). -/
def deriveVcUrlId (vcUrl : String) (output : Option String) (type : String) : String :=
  let out := match output with | some o => o | none => ""
  if out ≠ "" then
    if out.endsWith ".json" then vcUrl ++ "/" ++ pathBasename out
    else vcUrl ++ "/" ++ type ++ ".json"
  else vcUrl ++ "/" ++ type ++ ".json"

/-- Model of `createVcShapeObject` of `SelfDescriptionModule`.  `u` stands for the
`uuid4()` draw and `now` for `new Date().toISOString()`; the deterministic
`vcUrl` id is used only for the network-addressable types `LegalParticipant`
and `ServiceOffering`. -/
def createVcShapeObject (ep : ExecutableParams) (properties : List (String × Value))
    (u now : String) : VcShape :=
  let idStr :=
    if ep.type = "LegalParticipant" || ep.type = "ServiceOffering" then
      if jsTruthyS ep.vcUrl then deriveVcUrlId (ep.vcUrl.getD "") ep.output ep.type
      else u
    else u
  let base : VcShape :=
    { id := idStr,
      type := ["VerifiableCredential", "gx:" ++ ep.type],
      issuer := ep.issuer,
      credentialSubject := credentialSubjectOf idStr ep.type properties,
      context := none, issuanceDate := none, validFrom := none }
  if ep.ontologyVersion = tagusVersion then
    { base with context := some tagusContext, issuanceDate := some now }
  else if ep.ontologyVersion = loireVersion then
    { base with context := some loireContext, validFrom := some now }
  else base

/-!
## ServiceOfferingModule: composite (service-offering) bundling
Shallow embedding of `src/modules/ServiceOfferingModule.js`.
-/

/-- A credential subject, as pushed into the composite bundle. -/
abbrev Subject := List (String × Value)

/-- The fixed, ordered `shapes` list of `ServiceOfferingModule`. -/
def soShapes : List String :=
  ["ServiceOffering", "ServiceOfferingLabelLevel1", "DataResource",
   "SoftwareResource", "ServiceAccessPoint", "InstantiatedVirtualResource"]

/-- The static `preAssignedProperties` dependency table of
`ServiceOfferingModule`: properties of a shape inheriting ids of previously
generated shapes. -/
def soPreAssignedProperties (type : String) : List String :=
  if type = "ServiceOfferingLabelLevel1" then ["gx:assignedTo"]
  else if type = "DataResource" then ["gx:exposedThrough"]
  else if type = "InstantiatedVirtualResource" then
    ["gx:instanceOf", "gx:hostedOn", "gx:serviceAccessPoint"]
  else []

/-- Errors composite bundling could surface; the loop body of
`handleServiceOffering` contains no `throw`, so no run produces one. -/
inductive SOError where
  | missingDependencyId
deriving Repr, DecidableEq

/-- The mutable `this.previousShapeIds` store: a JS object keyed by shape type
whose stored values may be `undefined` when a generated subject lacks an id. -/
abbrev PrevIds := List (String × Option Value)

/-- Read of `this.previousShapeIds[k]` (missing key and stored `undefined`
are indistinguishable). -/
def prevLookup (prev : PrevIds) (k : String) : Option Value :=
  match alookup k prev with
  | some v => v
  | none => none

/-- The `if`-chain of `handleServiceOffering` selecting which previously
stored id feeds a dependent property. -/
def soAssignedId (prev : PrevIds) (property : String) : Option Value :=
  if property = "gx:assignedTo" || property = "gx:exposedThrough" then
    prevLookup prev "ServiceOffering"
  else if property = "gx:instanceOf" then prevLookup prev "SoftwareResource"
  else if property = "gx:hostedOn" then prevLookup prev "DataResource"
  else if property = "gx:serviceAccessPoint" then prevLookup prev "ServiceAccessPoint"
  else none

/-- One dependent-property assignment: a truthy id is wrapped as an
`id`-reference object and written onto the subject; a falsy id
(undefined/empty) only logs a warning and leaves the subject unchanged. -/
def soAssignStep (prev : PrevIds) (s : Subject) (property : String) : Subject :=
  match soAssignedId prev property with
  | some v => if jsTruthyV v then setKey s property (Value.obj [("id", v)]) else s
  | none => s

/-- State threaded through the shape loop of `handleServiceOffering`. -/
structure SOState where
  previousShapeIds : PrevIds
  credentialSubjects : List Subject

/-- One iteration of `for (const type of this.shapes)`: generate the shape
(abstracted as `gen`, since `generateShape` prompts and fetches), store its
subject id under the type, run the dependent-property assignments, and push
the subject. -/
def soProcessShape (gen : String → Subject) (st : SOState) (type : String) : SOState :=
  let subj := gen type
  let prev := setKey st.previousShapeIds type (alookup "id" subj)
  let subj := (soPreAssignedProperties type).foldl (soAssignStep prev) subj
  { previousShapeIds := prev, credentialSubjects := st.credentialSubjects ++ [subj] }

/-- The subjects produced by the main loop of `handleServiceOffering`. -/
def soSubjects (gen : String → Subject) : List Subject :=
  (soShapes.foldl (soProcessShape gen) ⟨[], []⟩).credentialSubjects

/-- Model of `appendSOTermsAndConditions`: when a `gx:ServiceOffering` subject with a
truthy `gx:termsAndConditions` exists, append the synthesized
`SOTermsAndConditions` subject (destructuring a non-object value yields
`undefined` fields, which JSON serialization drops — modelled by omitting
them); otherwise warn and return the list unchanged.  `u` is the `uuid4()`
draw for the new subject's id. -/
def appendSOTermsAndConditions (u : String) (credentialSubjects : List Subject) :
    List Subject :=
  let found := credentialSubjects.find? (fun s =>
    match alookup "type" s with
    | some (Value.str t) => t == "gx:ServiceOffering"
    | _ => false)
  match found with
  | none => credentialSubjects
  | some serviceOffering =>
    match alookup "gx:termsAndConditions" serviceOffering with
    | none => credentialSubjects
    | some tc =>
      if jsTruthyV tc then
        let url := match tc with | .obj fs => alookup "gx:URL" fs | _ => none
        let hash := match tc with | .obj fs => alookup "gx:hash" fs | _ => none
        let urlFields :=
          (match url with | some v => [("gx:URL", v)] | none => []) ++
          (match hash with | some v => [("gx:hash", v)] | none => [])
        credentialSubjects ++
          [[("id", Value.str u), ("type", Value.str "gx:SOTermsAndConditions"),
            ("gx:URL", Value.obj urlFields)]]
      else credentialSubjects

/-- Model of `handleServiceOffering` of `ServiceOfferingModule`; the `Except` carries
the error channel the spec claims for missing dependency ids — the source
body never throws. -/
def handleServiceOffering (gen : String → Subject) (u : String) :
    Except SOError (List Subject) :=
  .ok (appendSOTermsAndConditions u (soSubjects gen))

/-!
## SignatureModule: proof-chain signing
Shallow embedding of the `SignatureModule` with proof chaining
(`signDocument`, `createSignedCredential`, `signCredentialWithExistingProofs`,
`signWithJWS`, `signWithJWT`).  The cryptographic primitives are external
collaborators (`@gaia-x/json-web-signature-2020`, `jose`): they are abstracted
as oracles `se` (the JWS proof object produced for a document, absorbing the
pre-assigned `uuidv4()` proof id, passed as `u0`) and `je` (the compact JWT
encoding of a document). -/

/-- A proof object: `id` and `previousProof` are the fields manipulated by the
chain logic; all remaining fields (type, created, verificationMethod, the
signature value, ...) are collapsed into `body`. -/
structure Proof where
  id : Option String
  previousProof : Option String
  body : String
deriving Repr, DecidableEq

/-- The `proof` field of a credential: absent, a single object, or an array. -/
inductive ProofField where
  | absent
  | single (p : Proof)
  | array (ps : List Proof)
deriving Repr, DecidableEq

/-- A credential document: abstracted payload plus explicit `proof` field. -/
structure Credential where
  body : String
  proof : ProofField
deriving Repr, DecidableEq

/-- A signing result: a credential carrying proof object(s) (JWS strategy) or
a compact token string (JWT strategy). -/
inductive SignedResult where
  | doc (c : Credential)
  | jwt (token : String)
deriving Repr, DecidableEq

/-- Errors surfaced by `signDocument` (`typeError` models the uncaught JS
TypeError thrown when the chain logic dereferences `undefined`). -/
inductive SignError where
  | unsupportedVersion
  | previousProofNotFound
  | typeError
deriving Repr, DecidableEq

/-- The `options.previousProof` selector: a single id or a list of ids. -/
inductive PrevSel where
  | single (i : String)
  | list (ids : List String)
deriving Repr, DecidableEq

/-- Model of `signWithJWS`: the external JsonWebSignature2020 signer returns the signed
document with a single proof object. -/
def signWithJWS (se : Credential → String → Proof) (u : String) (data : Credential) :
    Credential :=
  { data with proof := .single (se data u) }

/-- Model of `signWithJWT`: the document is re-encoded as a signed compact token. -/
def signWithJWT (je : Credential → String) (data : Credential) : String :=
  je data

/-- Model of `createSignedCredential`: version dispatch between the two strategies. -/
def createSignedCredential (ontologyVersion : String) (shape : Credential)
    (se : Credential → String → Proof) (je : Credential → String) (u0 : String) :
    Except SignError SignedResult :=
  if ontologyVersion = tagusVersion then .ok (.doc (signWithJWS se u0 shape))
  else if ontologyVersion = loireVersion then .ok (.jwt (signWithJWT je shape))
  else .error .unsupportedVersion

/-- JS falsiness of a proof id (`!lastProof.id`): absent or empty. -/
def idFalsy (o : Option String) : Bool :=
  match o with
  | none => true
  | some s => s == ""

/-- STEP 1 of the chain extension: assign `"urn:uuid:" ++ u` to the last
existing proof only when its id is falsy. -/
def assignLastId (p : Proof) (u : String) : Proof :=
  if idFalsy p.id then { p with id := some ("urn:uuid:" ++ u) } else p

/-- Model of `signCredentialWithExistingProofs`: normalize the proof field to an array,
strip it from the credential, validate `options.previousProof` (a single id
fails when no proof matches it; a list fails when the match count differs from
the requested count), attach only the matched proofs for the new signature,
sign with the version strategy, then link and append the new proof to the full
original sequence.  A JWT result is a string whose `proof` is `undefined`, so
the subsequent `newProof.id` assignment throws a TypeError, as does indexing
the last proof of an empty proof array; both are modelled as `typeError`. -/
def signCredentialWithExistingProofs (originalCredential : Credential)
    (ontologyVersion : String) (previousProof : Option PrevSel)
    (se : Credential → String → Proof) (je : Credential → String)
    (u0 u1 u2 : String) : Except SignError SignedResult :=
  let proofArray : List Proof :=
    match originalCredential.proof with
    | .array ps => ps
    | .single p => [p]
    | .absent => []
  let credentialWithoutProof : Credential := { originalCredential with proof := .absent }
  let matched : Except SignError (List Proof) :=
    match previousProof with
    | none => .ok []
    | some (.single i) =>
      let m := proofArray.filter (fun p => p.id == some i)
      if m.length = 0 then .error .previousProofNotFound else .ok m
    | some (.list ids) =>
      let m := proofArray.filter (fun p =>
        match p.id with
        | some x => ids.contains x
        | none => false)
      if m.length ≠ ids.length then .error .previousProofNotFound else .ok m
  match matched with
  | .error e => .error e
  | .ok matchingProofs =>
    let pf := if matchingProofs.length = 0 then ProofField.absent else ProofField.array matchingProofs
    let credForSigning : Credential := { credentialWithoutProof with proof := pf }
    match createSignedCredential ontologyVersion credForSigning se je u0 with
    | .error e => .error e
    | .ok (.jwt _) => .error .typeError
    | .ok (.doc signedDoc) =>
      match signedDoc.proof with
      | .single newProof =>
        match proofArray.getLast? with
        | none => .error .typeError
        | some lastProof =>
          let lastP := assignLastId lastProof u1
          let newP : Proof :=
            { newProof with id := some ("urn:uuid:" ++ u2), previousProof := lastP.id }
          .ok (.doc { signedDoc with proof := .array (proofArray.dropLast ++ [lastP, newP]) })
      | _ => .error .typeError

/-- Model of `signDocument`: fresh signing when the credential has no truthy `proof`
field, chain extension otherwise. -/
def signDocument (ontologyVersion : String) (shape : Credential)
    (previousProof : Option PrevSel) (se : Credential → String → Proof)
    (je : Credential → String) (u0 u1 u2 : String) : Except SignError SignedResult :=
  match shape.proof with
  | .absent => createSignedCredential ontologyVersion shape se je u0
  | _ => signCredentialWithExistingProofs shape ontologyVersion previousProof se je u0 u1 u2

/-- Number of proofs carried by a signing result: proof objects counted
directly; a compact token carries exactly one signature. -/
def resultProofCount : SignedResult → Nat
  | .doc c =>
    match c.proof with
    | .absent => 0
    | .single _ => 1
    | .array ps => ps.length
  | .jwt _ => 1

/-- Whether the result's `proof` field is an array. -/
def resultProofIsArray : SignedResult → Bool
  | .doc c =>
    match c.proof with
    | .array _ => true
    | _ => false
  | .jwt _ => false

/-- The spec's classification of a collected value as "a string that is empty
or consists only of whitespace" (stated from the claim's words, to compare
with the code's filter). -/
def emptyOrWhitespaceStr : Value → Bool
  | .str s => s.data.all (fun c => c.isWhitespace)
  | _ => false

section AssocLemmas

variable {β : Type}

theorem alookup_map_replace (k : String) (v : β) :
    ∀ m : List (String × β), m.any (fun kv => kv.1 = k) = true →
      alookup k (m.map (fun kv => if kv.1 = k then (k, v) else kv)) = some v
  | [], h => by simp at h
  | kv :: rest, h => by
    by_cases hk : kv.1 = k
    · simp [alookup, hk]
    · have h' : rest.any (fun kv => kv.1 = k) = true := by
        simp only [List.any_cons, Bool.or_eq_true, decide_eq_true_eq] at h
        rcases h with h | h
        · exact absurd h hk
        · simpa using h
      simpa [alookup, hk] using alookup_map_replace k v rest h'

theorem alookup_append_missing (k : String) (v : β) :
    ∀ m : List (String × β), m.any (fun kv => kv.1 = k) = false →
      alookup k (m ++ [(k, v)]) = some v
  | [], _ => by simp [alookup]
  | kv :: rest, h => by
    rw [List.any_cons] at h
    have h1 : ¬ (kv.1 = k) := by
      intro hk
      simp [hk] at h
    have h2 : rest.any (fun kv => kv.1 = k) = false := (Bool.or_eq_false_iff.mp h).2
    simp only [List.cons_append, alookup, if_neg h1]
    exact alookup_append_missing k v rest h2

theorem alookup_setKey_self (m : List (String × β)) (k : String) (v : β) :
    alookup k (setKey m k v) = some v := by
  unfold setKey
  by_cases h : m.any (fun kv => kv.1 = k)
  · rw [if_pos h]
    exact alookup_map_replace k v m h
  · rw [if_neg h]
    exact alookup_append_missing k v m (Bool.eq_false_iff.mpr h)

theorem alookup_map_replace_ne (k k' : String) (v : β) (hne : k' ≠ k) :
    ∀ m : List (String × β),
      alookup k' (m.map (fun kv => if kv.1 = k then (k, v) else kv)) = alookup k' m
  | [] => rfl
  | kv :: rest => by
    by_cases hk : kv.1 = k
    · have h1 : ¬ (k = k') := fun h => hne h.symm
      have h2 : ¬ (kv.1 = k') := by rw [hk]; exact h1
      simp only [List.map_cons, if_pos hk, alookup, h1, if_false, if_neg h2]
      exact alookup_map_replace_ne k k' v hne rest
    · by_cases hk' : kv.1 = k'
      · simp only [List.map_cons, if_neg hk, alookup, if_pos hk']
      · simp only [List.map_cons, if_neg hk, alookup, if_neg hk']
        exact alookup_map_replace_ne k k' v hne rest

theorem alookup_append_single_ne (k k' : String) (v : β) (hne : k' ≠ k) :
    ∀ m : List (String × β), alookup k' (m ++ [(k, v)]) = alookup k' m
  | [] => by
    have h1 : ¬ (k = k') := fun h => hne h.symm
    simp only [List.nil_append, alookup, h1, if_false]
  | kv :: rest => by
    by_cases hk' : kv.1 = k'
    · simp only [List.cons_append, alookup, if_pos hk']
    · simp only [List.cons_append, alookup, if_neg hk']
      exact alookup_append_single_ne k k' v hne rest

theorem alookup_setKey_ne (m : List (String × β)) (k k' : String) (v : β) (hne : k' ≠ k) :
    alookup k' (setKey m k v) = alookup k' m := by
  unfold setKey
  by_cases h : m.any (fun kv => kv.1 = k)
  · rw [if_pos h]
    exact alookup_map_replace_ne k k' v hne m
  · rw [if_neg h]
    exact alookup_append_single_ne k k' v hne m

theorem mem_setKey_elim (m : List (String × β)) (k : String) (v w : β)
    (h : (k, v) ∈ setKey m k w) : v = w ∨ (k, v) ∈ m := by
  unfold setKey at h
  by_cases hany : m.any (fun kv => kv.1 = k)
  · rw [if_pos hany] at h
    rcases List.mem_map.mp h with ⟨kv, hkv, himg⟩
    by_cases hk : kv.1 = k
    · rw [if_pos hk] at himg
      exact Or.inl (by simpa using (congrArg Prod.snd himg).symm)
    · rw [if_neg hk] at himg
      exact absurd (by simpa using congrArg Prod.fst himg) hk
  · rw [if_neg hany] at h
    rcases List.mem_append.mp h with h | h
    · exact Or.inr h
    · exact Or.inl (by simpa using congrArg Prod.snd (List.mem_singleton.mp h))

theorem mem_setKey_ne_iff (m : List (String × β)) (k k' : String) (v w : β)
    (hne : k ≠ k') : (k, v) ∈ setKey m k' w ↔ (k, v) ∈ m := by
  unfold setKey
  by_cases hany : m.any (fun kv => kv.1 = k')
  · rw [if_pos hany]
    constructor
    · intro h
      rcases List.mem_map.mp h with ⟨kv, hkv, himg⟩
      by_cases hk : kv.1 = k'
      · rw [if_pos hk] at himg
        have : k' = k := by simpa using congrArg Prod.fst himg
        exact absurd this.symm hne
      · rw [if_neg hk] at himg
        exact himg ▸ hkv
    · intro h
      refine List.mem_map.mpr ⟨(k, v), h, ?_⟩
      rw [if_neg (by simpa using hne)]
  · rw [if_neg hany]
    constructor
    · intro h
      rcases List.mem_append.mp h with h | h
      · exact h
      · have : k = k' := by simpa using congrArg Prod.fst (List.mem_singleton.mp h)
        exact absurd this hne
    · intro h
      exact List.mem_append.mpr (Or.inl h)

theorem alookup_eq_none_of_not_mem_keys (k : String) :
    ∀ m : List (String × β), k ∉ m.map Prod.fst → alookup k m = none
  | [], _ => rfl
  | kv :: rest, h => by
    simp only [List.map_cons, List.mem_cons, not_or] at h
    simp only [alookup, if_neg (fun hh : kv.1 = k => h.1 hh.symm)]
    exact alookup_eq_none_of_not_mem_keys k rest h.2

theorem alookup_spread_missing (k : String) :
    ∀ b a : List (String × β), alookup k b = none → alookup k (spread a b) = alookup k a
  | [], a, _ => rfl
  | kv :: rest, a, h => by
    have hk : ¬ (kv.1 = k) := by
      intro hh
      simp [alookup, hh] at h
    have hrest : alookup k rest = none := by
      simpa [alookup, hk] using h
    show alookup k (spread (setKey a kv.1 kv.2) rest) = alookup k a
    rw [alookup_spread_missing k rest (setKey a kv.1 kv.2) hrest]
    exact alookup_setKey_ne a kv.1 k kv.2 (fun hh => hk hh.symm)

theorem alookup_spread_found (k : String) (v : β) :
    ∀ b a : List (String × β), (b.map Prod.fst).Nodup → alookup k b = some v →
      alookup k (spread a b) = some v
  | [], a, _, h => by simp [alookup] at h
  | kv :: rest, a, hnd, h => by
    simp only [List.map_cons, List.nodup_cons] at hnd
    by_cases hk : kv.1 = k
    · have hv : kv.2 = v := by
        have := h
        simp only [alookup, if_pos hk] at this
        exact Option.some.inj this
      have hrest : alookup k rest = none :=
        alookup_eq_none_of_not_mem_keys k rest (hk ▸ hnd.1)
      show alookup k (spread (setKey a kv.1 kv.2) rest) = some v
      rw [alookup_spread_missing k rest (setKey a kv.1 kv.2) hrest, hk, hv]
      exact alookup_setKey_self a k v
    · have hrest : alookup k rest = some v := by
        simpa [alookup, hk] using h
      exact alookup_spread_found k v rest (setKey a kv.1 kv.2) hnd.2 hrest

end AssocLemmas

/-!
## Claim theorems
-/

/-- C4: for ontology version "22.10 (Tagus)", subject type "LegalParticipant",
a caller-supplied base URL and no explicit output filename,
`createVcShapeObject` derives `id = baseUrl/LegalParticipant.json`, sets the
fixed SHACL-dialect two-entry context, sets `issuanceDate`, and leaves
`validFrom` unset — for every issuer, property map, uuid draw and clock
reading. -/
theorem tagus_legal_participant_envelope (issuer : Option String)
    (properties : List (String × Value)) (u now : String) :
    (createVcShapeObject
        ⟨"LegalParticipant", "22.10 (Tagus)", some "https://example.org/issuer", none, issuer⟩
        properties u now).id = "https://example.org/issuer/LegalParticipant.json"
    ∧ (createVcShapeObject
        ⟨"LegalParticipant", "22.10 (Tagus)", some "https://example.org/issuer", none, issuer⟩
        properties u now).context
        = some ["https://www.w3.org/2018/credentials/v1",
            "https://registry.lab.gaia-x.eu/development/api/trusted-shape-registry/v1/shapes/jsonld/trustframework#"]
    ∧ (createVcShapeObject
        ⟨"LegalParticipant", "22.10 (Tagus)", some "https://example.org/issuer", none, issuer⟩
        properties u now).issuanceDate = some now
    ∧ (createVcShapeObject
        ⟨"LegalParticipant", "22.10 (Tagus)", some "https://example.org/issuer", none, issuer⟩
        properties u now).validFrom = none := by
  refine ⟨rfl, rfl, rfl, rfl⟩

/-- C6: a document with no `proof` field is signed into exactly one proof
under both version strategies, and the result's proof is never an array (the
Tagus strategy yields a single proof object, the Loire strategy a single
compact token). -/
theorem sign_no_proof_single_proof (shape : Credential)
    (se : Credential → String → Proof) (je : Credential → String)
    (u0 u1 u2 : String) (h : shape.proof = .absent) :
    signDocument tagusVersion shape none se je u0 u1 u2
        = .ok (.doc { shape with proof := .single (se shape u0) })
    ∧ signDocument loireVersion shape none se je u0 u1 u2 = .ok (.jwt (je shape))
    ∧ resultProofCount (.doc { shape with proof := .single (se shape u0) }) = 1
    ∧ resultProofIsArray (.doc { shape with proof := .single (se shape u0) }) = false
    ∧ resultProofCount (.jwt (je shape)) = 1
    ∧ resultProofIsArray (.jwt (je shape)) = false := by
  obtain ⟨b, pf⟩ := shape
  simp only at h
  subst h
  refine ⟨rfl, rfl, rfl, rfl, rfl, rfl⟩

/-- Witness for C6 at a concrete document and concrete signing oracles. -/
theorem sign_no_proof_single_proof_witness :
    (Credential.mk "doc-body" .absent).proof = ProofField.absent
    ∧ signDocument tagusVersion ⟨"doc-body", .absent⟩ none
        (fun _ _ => ⟨none, none, "jws-sig"⟩) (fun _ => "jwt-token") "u0" "u1" "u2"
        = .ok (.doc ⟨"doc-body", .single ⟨none, none, "jws-sig"⟩⟩)
    ∧ resultProofCount (.jwt "jwt-token") = 1 :=
  ⟨rfl,
   (sign_no_proof_single_proof ⟨"doc-body", .absent⟩
      (fun _ _ => ⟨none, none, "jws-sig"⟩) (fun _ => "jwt-token") "u0" "u1" "u2" rfl).1,
   rfl⟩

/-- C8: the empty-value filter of `generateShape` keeps a collected entry
exactly when its key is the exempted `gx:policy` or its value is not an
empty/whitespace-only string; in particular non-string values are never
dropped and a blank `gx:policy` is retained. -/
theorem filter_drops_blank_strings_except_policy (coll : List (String × Value))
    (k : String) (v : Value) (h : (k, v) ∈ coll) :
    ((k, v) ∈ filterCollectedProperties coll
      ↔ (k = "gx:policy" ∨ emptyOrWhitespaceStr v = false)) := by
  unfold filterCollectedProperties
  rw [List.mem_filter]
  by_cases hk : k = "gx:policy"
  · subst hk
    simp [h]
  · cases v <;> simp [hk, h, emptyOrWhitespaceStr, trimNonempty, List.any_eq_true,
      Bool.not_eq_true']

/-- Witness for C8: a blank non-policy string is dropped while a blank policy
string and a non-string value are kept. -/
theorem filter_drops_blank_strings_except_policy_witness :
    (("gx:name", Value.str "  ") ∈
        [("gx:policy", Value.str ""), ("gx:name", Value.str "  "), ("gx:flag", Value.boolV true)])
    ∧ ((("gx:name", Value.str "  ") ∈ filterCollectedProperties
          [("gx:policy", Value.str ""), ("gx:name", Value.str "  "), ("gx:flag", Value.boolV true)])
        ↔ ("gx:name" = "gx:policy" ∨ emptyOrWhitespaceStr (Value.str "  ") = false)) :=
  ⟨List.Mem.tail _ (List.Mem.head _),
   filter_drops_blank_strings_except_policy
     [("gx:policy", Value.str ""), ("gx:name", Value.str "  "), ("gx:flag", Value.boolV true)]
     "gx:name" (Value.str "  ") (List.Mem.tail _ (List.Mem.head _))⟩

theorem alookup_setKey_isSome {β : Type} (m : List (String × β)) (k k' : String) (v : β)
    (h : (alookup k' m).isSome = true) : (alookup k' (setKey m k v)).isSome = true := by
  by_cases hk : k' = k
  · subst hk
    rw [alookup_setKey_self]
    rfl
  · rw [alookup_setKey_ne m k k' v hk]
    exact h

theorem loire_fold_mem (k : String) :
    ∀ (attrs : List (String × LoireAttribute)) (acc : List (String × PropertyConstraint)),
      ((∃ d, (k, d) ∈ attrs) ∨ (alookup ("gx:" ++ k) acc).isSome = true) →
      (alookup ("gx:" ++ k) (attrs.foldl formatLoireStep acc)).isSome = true
  | [], acc, h => by
    rcases h with ⟨d, hd⟩ | h
    · cases hd
    · simpa using h
  | kv :: rest, acc, h => by
    show (alookup ("gx:" ++ k) (rest.foldl formatLoireStep (formatLoireStep acc kv))).isSome = true
    apply loire_fold_mem k rest
    rcases h with ⟨d, hd⟩ | h
    · rcases List.mem_cons.mp hd with heq | hmem
      · right
        have hk : kv.1 = k := (congrArg Prod.fst heq).symm
        unfold formatLoireStep
        rw [hk, alookup_setKey_self]
        rfl
      · exact Or.inl ⟨d, hmem⟩
    · right
      unfold formatLoireStep
      exact alookup_setKey_isSome acc ("gx:" ++ kv.1) ("gx:" ++ k) _ h

/-- C9: for the LinkML dialect every class attribute — with or without a
`hasValue` annotation — is emitted as a collectable constraint under the `gx:`
prefix, and the pre-assigned map of the returned entry is always empty. -/
theorem loire_preassigned_always_empty (attributes : List (String × LoireAttribute))
    (k : String) (d : LoireAttribute) (h : (k, d) ∈ attributes) :
    (formatLoireAttributes attributes).preAssignedProperties = []
    ∧ (alookup ("gx:" ++ k) (formatLoireAttributes attributes).properties).isSome = true :=
  ⟨rfl, loire_fold_mem k attributes [] (Or.inl ⟨d, h⟩)⟩

/-- Witness for C9 at a concrete attribute that carries a `hasValue`
annotation: it still surfaces as collectable and nothing is pre-assigned. -/
theorem loire_preassigned_always_empty_witness :
    (("name", LoireAttribute.mk (some "Legal name") (some "string") (some "true")
        (some (Value.str "fixed")))
      ∈ [("name", LoireAttribute.mk (some "Legal name") (some "string") (some "true")
        (some (Value.str "fixed")))])
    ∧ (formatLoireAttributes
        [("name", LoireAttribute.mk (some "Legal name") (some "string") (some "true")
          (some (Value.str "fixed")))]).preAssignedProperties = []
    ∧ (alookup ("gx:" ++ "name") (formatLoireAttributes
        [("name", LoireAttribute.mk (some "Legal name") (some "string") (some "true")
          (some (Value.str "fixed")))]).properties).isSome = true :=
  ⟨List.Mem.head _,
   (loire_preassigned_always_empty _ "name" _ (List.Mem.head _)).1,
   (loire_preassigned_always_empty _ "name" _ (List.Mem.head _)).2⟩

theorem formatTagusCollectable_parts (acc : ShapeEntry) (p : TagusProperty)
    (pn : String) :
    ∃ c, (formatTagusCollectable acc p pn).properties = setKey acc.properties pn c
      ∧ (formatTagusCollectable acc p pn).preAssignedProperties
          = acc.preAssignedProperties :=
  ⟨_, rfl, rfl⟩

theorem tagus_fold_auto_invariant (name : String) (hmem : name ∈ autoAssignedProperties) :
    ∀ (props : List TagusProperty) (acc : ShapeEntry),
      alookup name acc.properties = none →
      (∀ w, (name, w) ∈ acc.preAssignedProperties → w = Value.str "PREASSIGNED") →
      alookup name (props.foldl formatTagusStep acc).properties = none
      ∧ ∀ w, (name, w) ∈ (props.foldl formatTagusStep acc).preAssignedProperties →
          w = Value.str "PREASSIGNED"
  | [], acc, h1, h2 => ⟨h1, h2⟩
  | p :: rest, acc, h1, h2 => by
    show alookup name (rest.foldl formatTagusStep (formatTagusStep acc p)).properties = none ∧ _
    refine tagus_fold_auto_invariant name hmem rest (formatTagusStep acc p) ?_ ?_
    · unfold formatTagusStep
      by_cases hauto : autoAssignedProperties.contains p.path
      · rw [if_pos hauto]
        exact h1
      · rw [if_neg hauto]
        have hpn : ¬ (p.path = name) := by
          intro he
          exact hauto (he ▸ List.elem_iff.mpr hmem)
        have hcol : alookup name (formatTagusCollectable acc p p.path).properties = none := by
          rcases formatTagusCollectable_parts acc p p.path with ⟨c, hp, hpre⟩
          rw [hp, alookup_setKey_ne acc.properties p.path name c (fun hh => hpn hh.symm)]
          exact h1
        cases hhv : p.hasValue with
        | some hv =>
          by_cases ht : jsTruthyV hv
          · simp only [ht, if_true]
            exact h1
          · simp only [ht, if_false]
            exact hcol
        | none =>
          exact hcol
    · intro w hw
      unfold formatTagusStep at hw
      by_cases hauto : autoAssignedProperties.contains p.path
      · rw [if_pos hauto] at hw
        by_cases hpk : p.path = name
        · rw [hpk] at hw
          rcases mem_setKey_elim acc.preAssignedProperties name w (Value.str "PREASSIGNED") hw with h | h
          · exact h
          · exact h2 w h
        · rw [mem_setKey_ne_iff acc.preAssignedProperties name p.path w (Value.str "PREASSIGNED") (fun hh => hpk hh.symm)] at hw
          exact h2 w hw
      · rw [if_neg hauto] at hw
        have hpn : ¬ (p.path = name) := by
          intro he
          exact hauto (he ▸ List.elem_iff.mpr hmem)
        cases hhv : p.hasValue with
        | some hv =>
          rw [hhv] at hw
          by_cases ht : jsTruthyV hv
          · simp only [ht, if_true] at hw
            exact h2 w ((mem_setKey_ne_iff acc.preAssignedProperties name p.path w hv (fun hh => hpn hh.symm)).mp hw)
          · simp only [ht, Bool.false_eq_true, if_false] at hw
            rcases formatTagusCollectable_parts acc p p.path with ⟨c, hp, hpre⟩
            rw [hpre] at hw
            exact h2 w hw
        | none =>
          rw [hhv] at hw
          have hw2 : (name, w) ∈ (formatTagusCollectable acc p p.path).preAssignedProperties := hw
          rcases formatTagusCollectable_parts acc p p.path with ⟨c, hp, hpre⟩
          rw [hpre] at hw2
          exact h2 w hw2

/-- C7 (amended): in the SHACL (Tagus) formatting an auto-assigned property
name never reaches the collectable map, and any pre-assigned binding it gets
is the `"PREASSIGNED"` placeholder.  (The LinkML path applies no such filter —
see the counterexample.) -/
theorem tagus_auto_assigned_never_surfaced (properties : List TagusProperty)
    (name : String) (w : Value)
    (h1 : name ∈ autoAssignedProperties)
    (h2 : (name, w) ∈ (formatTagusProperties properties).preAssignedProperties) :
    alookup name (formatTagusProperties properties).properties = none
    ∧ w = Value.str "PREASSIGNED" := by
  have base := tagus_fold_auto_invariant name h1 properties ⟨[], []⟩ rfl
    (fun w hw => absurd hw (List.not_mem_nil _))
  exact ⟨base.1, base.2 w h2⟩

/-- Witness for C7 at a concrete auto-assigned SHACL property. -/
theorem tagus_auto_assigned_never_surfaced_witness :
    ("gx:assignedTo" ∈ autoAssignedProperties)
    ∧ (("gx:assignedTo", Value.str "PREASSIGNED")
        ∈ (formatTagusProperties
            [TagusProperty.mk "gx:assignedTo" none none none none]).preAssignedProperties)
    ∧ alookup "gx:assignedTo" (formatTagusProperties
        [TagusProperty.mk "gx:assignedTo" none none none none]).properties = none := by
  have hpre : (formatTagusProperties
      [TagusProperty.mk "gx:assignedTo" none none none none]).preAssignedProperties
      = [("gx:assignedTo", Value.str "PREASSIGNED")] := rfl
  have hmem2 : ("gx:assignedTo", Value.str "PREASSIGNED")
      ∈ (formatTagusProperties
          [TagusProperty.mk "gx:assignedTo" none none none none]).preAssignedProperties := by
    rw [hpre]
    exact List.Mem.head _
  exact ⟨by decide, hmem2,
    (tagus_auto_assigned_never_surfaced _ _ _ (by decide) hmem2).1⟩

/-- C7 counterexample: the LinkML (Loire) path applies no never-surfaced
filter — a catalog class with an `assignedTo` attribute resolves to an entry
whose collectable properties contain `gx:assignedTo`, a member of the
never-surfaced list, so the claim fails for the Loire dialect. -/
theorem loire_auto_assigned_surfaced_cex :
    handleLoireVersion
        [("SomeType", LoireClass.mk none
          [("assignedTo", LoireAttribute.mk none none none none)])]
      = [("SomeType", ShapeEntry.mk
          [("gx:assignedTo", PropertyConstraint.mk "" "string" false)] [])]
    ∧ autoAssignedProperties.contains "gx:assignedTo" = true :=
  ⟨rfl, rfl⟩

theorem tagusLoop_lookup_skip (allShapes : List TagusShape) (name : String)
    (hfind : findTagusShape allShapes name = .ok none) :
    ∀ (names : List String) (acc m : List (String × ShapeEntry)),
      tagusLoop allShapes names acc = .ok m → alookup name m = alookup name acc
  | [], acc, m, h => by
    unfold tagusLoop at h
    rw [Except.ok.inj h]
  | n :: rest, acc, m, h => by
    unfold tagusLoop at h
    split at h
    · cases h
    · exact tagusLoop_lookup_skip allShapes name hfind rest acc m h
    · rename_i sd heq
      have hne : ¬ (n = name) := by
        intro he
        rw [he, hfind] at heq
        simp at heq
      split at h
      · cases h
      · rename_i p hsp
        rw [tagusLoop_lookup_skip allShapes name hfind rest _ m h]
        exact alookup_setKey_ne acc n name (formatTagusProperties [p])
          (fun hh => hne hh.symm)
      · rename_i ps hsp
        rw [tagusLoop_lookup_skip allShapes name hfind rest _ m h]
        exact alookup_setKey_ne acc n name (formatTagusProperties ps)
          (fun hh => hne hh.symm)

/-- C10: a Tagus allow-listed shape name that matches no node of the fetched
shape graph (neither by id inclusion nor by the target-class special case) is
silently skipped: whenever normalization succeeds its type map has no entry
for that name, and an allow-list holding only that name normalizes without
error to the empty map. -/
theorem tagus_unmatched_shape_skipped (allShapes : List TagusShape)
    (implementedShapes : List String) (name : String)
    (m : List (String × ShapeEntry))
    (hfind : findTagusShape allShapes name = .ok none)
    (hok : handleTagusVersion allShapes implementedShapes = .ok m) :
    alookup name m = none ∧ handleTagusVersion allShapes [name] = .ok [] := by
  constructor
  · have hskip := tagusLoop_lookup_skip allShapes name hfind
      (sortStrings implementedShapes) [] m hok
    rw [hskip]
    rfl
  · show tagusLoop allShapes (sortStrings [name]) [] = .ok []
    have hs : sortStrings [name] = [name] := rfl
    rw [hs]
    unfold tagusLoop
    rw [hfind]
    rfl

/-- Witness for C10: a graph holding only an unrelated shape node. -/
theorem tagus_unmatched_shape_skipped_witness :
    findTagusShape [TagusShape.mk (some "gx:OtherShape") none (.many [])]
        "LegalParticipant" = .ok none
    ∧ handleTagusVersion [TagusShape.mk (some "gx:OtherShape") none (.many [])]
        ["OtherShape"] = .ok [("OtherShape", ShapeEntry.mk [] [])]
    ∧ alookup "LegalParticipant" [("OtherShape", ShapeEntry.mk [] [])] = none
    ∧ handleTagusVersion [TagusShape.mk (some "gx:OtherShape") none (.many [])]
        ["LegalParticipant"] = .ok [] := by
  refine ⟨rfl, rfl, ?_, ?_⟩
  · exact (tagus_unmatched_shape_skipped
      [TagusShape.mk (some "gx:OtherShape") none (.many [])] ["OtherShape"]
      "LegalParticipant" [("OtherShape", ShapeEntry.mk [] [])] rfl rfl).1
  · exact (tagus_unmatched_shape_skipped
      [TagusShape.mk (some "gx:OtherShape") none (.many [])] ["OtherShape"]
      "LegalParticipant" [("OtherShape", ShapeEntry.mk [] [])] rfl rfl).2

/-- C3 (amended): in the `finalProperties` merge of `generateShape` the
user-collected values win, not the pre-assigned ones: a binding that survives
the empty-value filter appears with its collected value in the merged map,
and pre-assigned values fill only the names the filtered collected map
lacks. -/
theorem collected_overrides_preassigned (pre coll : List (String × Value))
    (k : String) (v : Value)
    (hnd : ((filterCollectedProperties coll).map Prod.fst).Nodup) :
    (alookup k (filterCollectedProperties coll) = some v →
      alookup k (finalPropertiesOf pre coll) = some v)
    ∧ (alookup k (filterCollectedProperties coll) = none →
      alookup k (finalPropertiesOf pre coll) = alookup k pre) :=
  ⟨fun hv => alookup_spread_found k v (filterCollectedProperties coll) pre hnd hv,
   fun hn => alookup_spread_missing k (filterCollectedProperties coll) pre hn⟩

/-- Witness for C3 at a concrete pre-assigned/collected pair sharing a name. -/
theorem collected_overrides_preassigned_witness :
    ((filterCollectedProperties [("gx:name", Value.str "UserVal")]).map Prod.fst).Nodup
    ∧ ((alookup "gx:name" (filterCollectedProperties [("gx:name", Value.str "UserVal")])
          = some (Value.str "UserVal") →
        alookup "gx:name" (finalPropertiesOf [("gx:name", Value.str "Pre")]
          [("gx:name", Value.str "UserVal")]) = some (Value.str "UserVal"))
      ∧ (alookup "gx:name" (filterCollectedProperties [("gx:name", Value.str "UserVal")])
          = none →
        alookup "gx:name" (finalPropertiesOf [("gx:name", Value.str "Pre")]
          [("gx:name", Value.str "UserVal")])
          = alookup "gx:name" [("gx:name", Value.str "Pre")])) :=
  ⟨by decide,
   collected_overrides_preassigned [("gx:name", Value.str "Pre")]
     [("gx:name", Value.str "UserVal")] "gx:name" (Value.str "UserVal") (by decide)⟩

/-- C3 counterexample: with pre-assigned `gx:name = "Pre"` and collected
`gx:name = "UserVal"`, the merged `finalProperties` and the composed
`credentialSubject` carry the collected value, not the pre-assigned one — the
claim that the pre-assigned value always wins is false on the code. -/
theorem preassigned_wins_cex :
    alookup "gx:name" (finalPropertiesOf [("gx:name", Value.str "Pre")]
        [("gx:name", Value.str "UserVal")]) = some (Value.str "UserVal")
    ∧ alookup "gx:name" (credentialSubjectOf "cs-id" "LegalParticipant"
        (finalPropertiesOf [("gx:name", Value.str "Pre")]
          [("gx:name", Value.str "UserVal")])) = some (Value.str "UserVal")
    ∧ ¬ (Value.str "UserVal" = Value.str "Pre") := by
  refine ⟨rfl, rfl, ?_⟩
  intro h
  injection h with h2
  exact absurd h2 (by decide)

/-- C5 (amended): composite bundling generates the shapes in the fixed
declared order; every dependent property of a later shape is set to an
id-reference object wrapping the earlier shape's `credentialSubject.id`
(`gx:assignedTo` and `gx:exposedThrough` from `ServiceOffering`,
`gx:instanceOf` from `SoftwareResource`, `gx:hostedOn` from `DataResource`,
`gx:serviceAccessPoint` from `ServiceAccessPoint`); and the loop itself never
raises — a missing dependency id is only warned about (see the
counterexample), so `MissingDependencyIdError` does not exist on this path. -/
theorem service_offering_dependency_wiring (gen : String → Subject) (u : String)
    (iSO iLL iDR iSW iAP iIV : String)
    (hgenSO : alookup "id" (gen "ServiceOffering") = some (Value.str iSO))
    (hgenLL : alookup "id" (gen "ServiceOfferingLabelLevel1") = some (Value.str iLL))
    (hgenDR : alookup "id" (gen "DataResource") = some (Value.str iDR))
    (hgenSW : alookup "id" (gen "SoftwareResource") = some (Value.str iSW))
    (hgenAP : alookup "id" (gen "ServiceAccessPoint") = some (Value.str iAP))
    (hgenIV : alookup "id" (gen "InstantiatedVirtualResource") = some (Value.str iIV))
    (hSO : iSO ≠ "") (hSW : iSW ≠ "") (hDR : iDR ≠ "") (hAP : iAP ≠ "") :
    handleServiceOffering gen u = .ok (appendSOTermsAndConditions u (soSubjects gen))
    ∧ (soSubjects gen).length = 6
    ∧ alookup "id" ((soSubjects gen).getD 0 []) = some (Value.str iSO)
    ∧ alookup "id" ((soSubjects gen).getD 1 []) = some (Value.str iLL)
    ∧ alookup "gx:assignedTo" ((soSubjects gen).getD 1 [])
        = some (Value.obj [("id", Value.str iSO)])
    ∧ alookup "id" ((soSubjects gen).getD 2 []) = some (Value.str iDR)
    ∧ alookup "gx:exposedThrough" ((soSubjects gen).getD 2 [])
        = some (Value.obj [("id", Value.str iSO)])
    ∧ alookup "id" ((soSubjects gen).getD 3 []) = some (Value.str iSW)
    ∧ alookup "id" ((soSubjects gen).getD 4 []) = some (Value.str iAP)
    ∧ alookup "id" ((soSubjects gen).getD 5 []) = some (Value.str iIV)
    ∧ alookup "gx:instanceOf" ((soSubjects gen).getD 5 [])
        = some (Value.obj [("id", Value.str iSW)])
    ∧ alookup "gx:hostedOn" ((soSubjects gen).getD 5 [])
        = some (Value.obj [("id", Value.str iDR)])
    ∧ alookup "gx:serviceAccessPoint" ((soSubjects gen).getD 5 [])
        = some (Value.obj [("id", Value.str iAP)]) := by
  have ht0 : jsTruthyV (Value.str iSO) = true := by simp [jsTruthyV, hSO]
  have ht1 : jsTruthyV (Value.str iSW) = true := by simp [jsTruthyV, hSW]
  have ht2 : jsTruthyV (Value.str iDR) = true := by simp [jsTruthyV, hDR]
  have ht3 : jsTruthyV (Value.str iAP) = true := by simp [jsTruthyV, hAP]
  have e1 : soProcessShape gen ⟨[], []⟩ "ServiceOffering"
      = ⟨[("ServiceOffering", some (Value.str iSO))], [gen "ServiceOffering"]⟩ := by
    simp [soProcessShape, soPreAssignedProperties, setKey, hgenSO]
  have e2 : soProcessShape gen ⟨[("ServiceOffering", some (Value.str iSO))],
        [gen "ServiceOffering"]⟩ "ServiceOfferingLabelLevel1"
      = ⟨[("ServiceOffering", some (Value.str iSO)),
          ("ServiceOfferingLabelLevel1", some (Value.str iLL))],
         [gen "ServiceOffering",
          setKey (gen "ServiceOfferingLabelLevel1") "gx:assignedTo"
            (Value.obj [("id", Value.str iSO)])]⟩ := by
    simp [soProcessShape, soPreAssignedProperties, soAssignStep, soAssignedId,
      prevLookup, alookup, setKey, hgenLL, ht0]
  have e3 : soProcessShape gen ⟨[("ServiceOffering", some (Value.str iSO)),
          ("ServiceOfferingLabelLevel1", some (Value.str iLL))],
        [gen "ServiceOffering",
         setKey (gen "ServiceOfferingLabelLevel1") "gx:assignedTo"
           (Value.obj [("id", Value.str iSO)])]⟩ "DataResource"
      = ⟨[("ServiceOffering", some (Value.str iSO)),
          ("ServiceOfferingLabelLevel1", some (Value.str iLL)),
          ("DataResource", some (Value.str iDR))],
         [gen "ServiceOffering",
          setKey (gen "ServiceOfferingLabelLevel1") "gx:assignedTo"
            (Value.obj [("id", Value.str iSO)]),
          setKey (gen "DataResource") "gx:exposedThrough"
            (Value.obj [("id", Value.str iSO)])]⟩ := by
    simp [soProcessShape, soPreAssignedProperties, soAssignStep, soAssignedId,
      prevLookup, alookup, setKey, hgenDR, ht0]
  have e4 : soProcessShape gen ⟨[("ServiceOffering", some (Value.str iSO)),
          ("ServiceOfferingLabelLevel1", some (Value.str iLL)),
          ("DataResource", some (Value.str iDR))],
        [gen "ServiceOffering",
         setKey (gen "ServiceOfferingLabelLevel1") "gx:assignedTo"
           (Value.obj [("id", Value.str iSO)]),
         setKey (gen "DataResource") "gx:exposedThrough"
           (Value.obj [("id", Value.str iSO)])]⟩ "SoftwareResource"
      = ⟨[("ServiceOffering", some (Value.str iSO)),
          ("ServiceOfferingLabelLevel1", some (Value.str iLL)),
          ("DataResource", some (Value.str iDR)),
          ("SoftwareResource", some (Value.str iSW))],
         [gen "ServiceOffering",
          setKey (gen "ServiceOfferingLabelLevel1") "gx:assignedTo"
            (Value.obj [("id", Value.str iSO)]),
          setKey (gen "DataResource") "gx:exposedThrough"
            (Value.obj [("id", Value.str iSO)]),
          gen "SoftwareResource"]⟩ := by
    simp [soProcessShape, soPreAssignedProperties, setKey, hgenSW]
  have e5 : soProcessShape gen ⟨[("ServiceOffering", some (Value.str iSO)),
          ("ServiceOfferingLabelLevel1", some (Value.str iLL)),
          ("DataResource", some (Value.str iDR)),
          ("SoftwareResource", some (Value.str iSW))],
        [gen "ServiceOffering",
         setKey (gen "ServiceOfferingLabelLevel1") "gx:assignedTo"
           (Value.obj [("id", Value.str iSO)]),
         setKey (gen "DataResource") "gx:exposedThrough"
           (Value.obj [("id", Value.str iSO)]),
         gen "SoftwareResource"]⟩ "ServiceAccessPoint"
      = ⟨[("ServiceOffering", some (Value.str iSO)),
          ("ServiceOfferingLabelLevel1", some (Value.str iLL)),
          ("DataResource", some (Value.str iDR)),
          ("SoftwareResource", some (Value.str iSW)),
          ("ServiceAccessPoint", some (Value.str iAP))],
         [gen "ServiceOffering",
          setKey (gen "ServiceOfferingLabelLevel1") "gx:assignedTo"
            (Value.obj [("id", Value.str iSO)]),
          setKey (gen "DataResource") "gx:exposedThrough"
            (Value.obj [("id", Value.str iSO)]),
          gen "SoftwareResource",
          gen "ServiceAccessPoint"]⟩ := by
    simp [soProcessShape, soPreAssignedProperties, setKey, hgenAP]
  have e6 : soProcessShape gen ⟨[("ServiceOffering", some (Value.str iSO)),
          ("ServiceOfferingLabelLevel1", some (Value.str iLL)),
          ("DataResource", some (Value.str iDR)),
          ("SoftwareResource", some (Value.str iSW)),
          ("ServiceAccessPoint", some (Value.str iAP))],
        [gen "ServiceOffering",
         setKey (gen "ServiceOfferingLabelLevel1") "gx:assignedTo"
           (Value.obj [("id", Value.str iSO)]),
         setKey (gen "DataResource") "gx:exposedThrough"
           (Value.obj [("id", Value.str iSO)]),
         gen "SoftwareResource",
         gen "ServiceAccessPoint"]⟩ "InstantiatedVirtualResource"
      = ⟨[("ServiceOffering", some (Value.str iSO)),
          ("ServiceOfferingLabelLevel1", some (Value.str iLL)),
          ("DataResource", some (Value.str iDR)),
          ("SoftwareResource", some (Value.str iSW)),
          ("ServiceAccessPoint", some (Value.str iAP)),
          ("InstantiatedVirtualResource", some (Value.str iIV))],
         [gen "ServiceOffering",
          setKey (gen "ServiceOfferingLabelLevel1") "gx:assignedTo"
            (Value.obj [("id", Value.str iSO)]),
          setKey (gen "DataResource") "gx:exposedThrough"
            (Value.obj [("id", Value.str iSO)]),
          gen "SoftwareResource",
          gen "ServiceAccessPoint",
          setKey (setKey (setKey (gen "InstantiatedVirtualResource") "gx:instanceOf"
              (Value.obj [("id", Value.str iSW)])) "gx:hostedOn"
              (Value.obj [("id", Value.str iDR)])) "gx:serviceAccessPoint"
              (Value.obj [("id", Value.str iAP)])]⟩ := by
    have ha1 : ∀ s : Subject, soAssignStep
        [("ServiceOffering", some (Value.str iSO)),
         ("ServiceOfferingLabelLevel1", some (Value.str iLL)),
         ("DataResource", some (Value.str iDR)),
         ("SoftwareResource", some (Value.str iSW)),
         ("ServiceAccessPoint", some (Value.str iAP)),
         ("InstantiatedVirtualResource", some (Value.str iIV))] s "gx:instanceOf"
        = setKey s "gx:instanceOf" (Value.obj [("id", Value.str iSW)]) := fun s => by
      simp [soAssignStep, soAssignedId, prevLookup, alookup, ht1]
    have ha2 : ∀ s : Subject, soAssignStep
        [("ServiceOffering", some (Value.str iSO)),
         ("ServiceOfferingLabelLevel1", some (Value.str iLL)),
         ("DataResource", some (Value.str iDR)),
         ("SoftwareResource", some (Value.str iSW)),
         ("ServiceAccessPoint", some (Value.str iAP)),
         ("InstantiatedVirtualResource", some (Value.str iIV))] s "gx:hostedOn"
        = setKey s "gx:hostedOn" (Value.obj [("id", Value.str iDR)]) := fun s => by
      simp [soAssignStep, soAssignedId, prevLookup, alookup, ht2]
    have ha3 : ∀ s : Subject, soAssignStep
        [("ServiceOffering", some (Value.str iSO)),
         ("ServiceOfferingLabelLevel1", some (Value.str iLL)),
         ("DataResource", some (Value.str iDR)),
         ("SoftwareResource", some (Value.str iSW)),
         ("ServiceAccessPoint", some (Value.str iAP)),
         ("InstantiatedVirtualResource", some (Value.str iIV))] s "gx:serviceAccessPoint"
        = setKey s "gx:serviceAccessPoint" (Value.obj [("id", Value.str iAP)]) := fun s => by
      simp [soAssignStep, soAssignedId, prevLookup, alookup, ht3]
    have hp6 : setKey
        [("ServiceOffering", some (Value.str iSO)),
         ("ServiceOfferingLabelLevel1", some (Value.str iLL)),
         ("DataResource", some (Value.str iDR)),
         ("SoftwareResource", some (Value.str iSW)),
         ("ServiceAccessPoint", some (Value.str iAP))]
        "InstantiatedVirtualResource" (some (Value.str iIV))
        = [("ServiceOffering", some (Value.str iSO)),
           ("ServiceOfferingLabelLevel1", some (Value.str iLL)),
           ("DataResource", some (Value.str iDR)),
           ("SoftwareResource", some (Value.str iSW)),
           ("ServiceAccessPoint", some (Value.str iAP)),
           ("InstantiatedVirtualResource", some (Value.str iIV))] := by
      simp [setKey]
    simp [soProcessShape, soPreAssignedProperties, hgenIV, hp6, ha1, ha2, ha3]
  have hfold : soSubjects gen
      = [gen "ServiceOffering",
         setKey (gen "ServiceOfferingLabelLevel1") "gx:assignedTo"
           (Value.obj [("id", Value.str iSO)]),
         setKey (gen "DataResource") "gx:exposedThrough"
           (Value.obj [("id", Value.str iSO)]),
         gen "SoftwareResource",
         gen "ServiceAccessPoint",
         setKey (setKey (setKey (gen "InstantiatedVirtualResource") "gx:instanceOf"
             (Value.obj [("id", Value.str iSW)])) "gx:hostedOn"
             (Value.obj [("id", Value.str iDR)])) "gx:serviceAccessPoint"
             (Value.obj [("id", Value.str iAP)])] := by
    show (List.foldl (soProcessShape gen) ⟨[], []⟩ soShapes).credentialSubjects = _
    rw [show soShapes = ["ServiceOffering", "ServiceOfferingLabelLevel1", "DataResource",
      "SoftwareResource", "ServiceAccessPoint", "InstantiatedVirtualResource"] from rfl]
    simp only [List.foldl]
    rw [e1, e2, e3, e4, e5, e6]
  refine ⟨rfl, ?_, ?_, ?_, ?_, ?_, ?_, ?_, ?_, ?_, ?_, ?_, ?_⟩ <;> rw [hfold]
  · rfl
  · exact hgenSO
  · simp only [List.getD_cons_succ, List.getD_cons_zero]
    rw [alookup_setKey_ne (gen "ServiceOfferingLabelLevel1") "gx:assignedTo" "id"
      (Value.obj [("id", Value.str iSO)]) (by decide)]
    exact hgenLL
  · simp only [List.getD_cons_succ, List.getD_cons_zero]
    exact alookup_setKey_self _ _ _
  · simp only [List.getD_cons_succ, List.getD_cons_zero]
    rw [alookup_setKey_ne (gen "DataResource") "gx:exposedThrough" "id"
      (Value.obj [("id", Value.str iSO)]) (by decide)]
    exact hgenDR
  · simp only [List.getD_cons_succ, List.getD_cons_zero]
    exact alookup_setKey_self _ _ _
  · exact hgenSW
  · exact hgenAP
  · simp only [List.getD_cons_succ, List.getD_cons_zero]
    rw [alookup_setKey_ne _ "gx:serviceAccessPoint" "id"
      (Value.obj [("id", Value.str iAP)]) (by decide)]
    rw [alookup_setKey_ne _ "gx:hostedOn" "id"
      (Value.obj [("id", Value.str iDR)]) (by decide)]
    rw [alookup_setKey_ne (gen "InstantiatedVirtualResource") "gx:instanceOf" "id"
      (Value.obj [("id", Value.str iSW)]) (by decide)]
    exact hgenIV
  · simp only [List.getD_cons_succ, List.getD_cons_zero]
    rw [alookup_setKey_ne _ "gx:serviceAccessPoint" "gx:instanceOf"
      (Value.obj [("id", Value.str iAP)]) (by decide)]
    rw [alookup_setKey_ne _ "gx:hostedOn" "gx:instanceOf"
      (Value.obj [("id", Value.str iDR)]) (by decide)]
    exact alookup_setKey_self _ _ _
  · simp only [List.getD_cons_succ, List.getD_cons_zero]
    rw [alookup_setKey_ne _ "gx:serviceAccessPoint" "gx:hostedOn"
      (Value.obj [("id", Value.str iAP)]) (by decide)]
    exact alookup_setKey_self _ _ _
  · simp only [List.getD_cons_succ, List.getD_cons_zero]
    exact alookup_setKey_self _ _ _

/-- Witness for C5: concrete generated subjects whose ids are their type
names. -/
theorem service_offering_dependency_wiring_witness :
    alookup "id" ((fun t => [("id", Value.str t)]) "ServiceOffering")
        = some (Value.str "ServiceOffering")
    ∧ alookup "id" ((fun t => [("id", Value.str t)]) "ServiceOfferingLabelLevel1")
        = some (Value.str "ServiceOfferingLabelLevel1")
    ∧ alookup "id" ((fun t => [("id", Value.str t)]) "DataResource")
        = some (Value.str "DataResource")
    ∧ alookup "id" ((fun t => [("id", Value.str t)]) "SoftwareResource")
        = some (Value.str "SoftwareResource")
    ∧ alookup "id" ((fun t => [("id", Value.str t)]) "ServiceAccessPoint")
        = some (Value.str "ServiceAccessPoint")
    ∧ alookup "id" ((fun t => [("id", Value.str t)]) "InstantiatedVirtualResource")
        = some (Value.str "InstantiatedVirtualResource")
    ∧ ("ServiceOffering" : String) ≠ ""
    ∧ ("SoftwareResource" : String) ≠ ""
    ∧ ("DataResource" : String) ≠ ""
    ∧ ("ServiceAccessPoint" : String) ≠ ""
    ∧ (handleServiceOffering (fun t => [("id", Value.str t)]) "uuid-terms"
        = .ok (appendSOTermsAndConditions "uuid-terms"
            (soSubjects (fun t => [("id", Value.str t)])))
      ∧ (soSubjects (fun t => [("id", Value.str t)])).length = 6
      ∧ alookup "id" ((soSubjects (fun t => [("id", Value.str t)])).getD 0 [])
          = some (Value.str "ServiceOffering")
      ∧ alookup "id" ((soSubjects (fun t => [("id", Value.str t)])).getD 1 [])
          = some (Value.str "ServiceOfferingLabelLevel1")
      ∧ alookup "gx:assignedTo" ((soSubjects (fun t => [("id", Value.str t)])).getD 1 [])
          = some (Value.obj [("id", Value.str "ServiceOffering")])
      ∧ alookup "id" ((soSubjects (fun t => [("id", Value.str t)])).getD 2 [])
          = some (Value.str "DataResource")
      ∧ alookup "gx:exposedThrough" ((soSubjects (fun t => [("id", Value.str t)])).getD 2 [])
          = some (Value.obj [("id", Value.str "ServiceOffering")])
      ∧ alookup "id" ((soSubjects (fun t => [("id", Value.str t)])).getD 3 [])
          = some (Value.str "SoftwareResource")
      ∧ alookup "id" ((soSubjects (fun t => [("id", Value.str t)])).getD 4 [])
          = some (Value.str "ServiceAccessPoint")
      ∧ alookup "id" ((soSubjects (fun t => [("id", Value.str t)])).getD 5 [])
          = some (Value.str "InstantiatedVirtualResource")
      ∧ alookup "gx:instanceOf" ((soSubjects (fun t => [("id", Value.str t)])).getD 5 [])
          = some (Value.obj [("id", Value.str "SoftwareResource")])
      ∧ alookup "gx:hostedOn" ((soSubjects (fun t => [("id", Value.str t)])).getD 5 [])
          = some (Value.obj [("id", Value.str "DataResource")])
      ∧ alookup "gx:serviceAccessPoint" ((soSubjects (fun t => [("id", Value.str t)])).getD 5 [])
          = some (Value.obj [("id", Value.str "ServiceAccessPoint")])) :=
  ⟨rfl, rfl, rfl, rfl, rfl, rfl, by decide, by decide, by decide, by decide,
   service_offering_dependency_wiring (fun t => [("id", Value.str t)]) "uuid-terms"
     "ServiceOffering" "ServiceOfferingLabelLevel1" "DataResource" "SoftwareResource"
     "ServiceAccessPoint" "InstantiatedVirtualResource"
     rfl rfl rfl rfl rfl rfl (by decide) (by decide) (by decide) (by decide)⟩

/-- C5 counterexample: when the generated subjects carry no ids, every
dependency id is missing at wiring time, yet `handleServiceOffering` raises no
`MissingDependencyIdError`: it returns successfully with the dependent
properties simply left unset (the source only logs a warning), so the claimed
error behaviour is false on the code. -/
theorem missing_dependency_no_error_cex :
    handleServiceOffering (fun t => [("type", Value.str t)]) "uuid-terms"
      = .ok [[("type", Value.str "ServiceOffering")],
             [("type", Value.str "ServiceOfferingLabelLevel1")],
             [("type", Value.str "DataResource")],
             [("type", Value.str "SoftwareResource")],
             [("type", Value.str "ServiceAccessPoint")],
             [("type", Value.str "InstantiatedVirtualResource")]]
    ∧ alookup "gx:assignedTo" [("type", Value.str "ServiceOfferingLabelLevel1")] = none :=
  ⟨rfl, rfl⟩

/-- C1 (amended): under the Tagus (JWS) strategy, signing a document that
already carries N ≥ 1 proofs (an array, or a single proof object first
normalized to a one-element sequence) with no previous-proof selector appends
exactly one proof: the first N proofs are the originals in their order — the
last one assigned a fresh id only when its id was falsy (`assignLastId`) — and
the new proof's `previousProof` is that last proof's (possibly fresh) id.
Under the Loire strategy this chain path throws instead — see the
counterexample. -/
theorem tagus_chain_extension (body : String) (ps : List Proof) (plast p0 : Proof)
    (se : Credential → String → Proof) (je : Credential → String)
    (u0 u1 u2 : String) (hlast : ps.getLast? = some plast) :
    signDocument tagusVersion ⟨body, .array ps⟩ none se je u0 u1 u2
      = .ok (.doc ⟨body, .array (ps.dropLast ++
          [assignLastId plast u1,
           { se ⟨body, .absent⟩ u0 with id := some ("urn:uuid:" ++ u2), previousProof := (assignLastId plast u1).id }])⟩)
    ∧ signDocument tagusVersion ⟨body, .single p0⟩ none se je u0 u1 u2
      = .ok (.doc ⟨body, .array
          [assignLastId p0 u1,
           { se ⟨body, .absent⟩ u0 with id := some ("urn:uuid:" ++ u2), previousProof := (assignLastId p0 u1).id }]⟩)
    ∧ (ps.dropLast ++ [assignLastId plast u1,
         { se ⟨body, .absent⟩ u0 with id := some ("urn:uuid:" ++ u2), previousProof := (assignLastId plast u1).id }]).length
        = ps.length + 1
    ∧ ({ se ⟨body, .absent⟩ u0 with id := some ("urn:uuid:" ++ u2), previousProof := (assignLastId plast u1).id } : Proof).previousProof
        = (assignLastId plast u1).id := by
  refine ⟨?_, ?_, ?_, rfl⟩
  · show signCredentialWithExistingProofs ⟨body, .array ps⟩ tagusVersion none se je u0 u1 u2 = _
    simp [signCredentialWithExistingProofs, createSignedCredential, signWithJWS, hlast,
      tagusVersion]
  · show signCredentialWithExistingProofs ⟨body, .single p0⟩ tagusVersion none se je u0 u1 u2 = _
    simp [signCredentialWithExistingProofs, createSignedCredential, signWithJWS, tagusVersion]
  · have hne : ps ≠ [] := by
      intro h
      rw [h] at hlast
      cases hlast
    have hpos : 0 < ps.length := List.length_pos.mpr hne
    simp only [List.length_append, List.length_dropLast, List.length_cons, List.length_nil]
    omega

/-- Witness for C1 at a one-proof document whose proof lacks an id. -/
theorem tagus_chain_extension_witness :
    ([Proof.mk none none "sig-a"].getLast? = some (Proof.mk none none "sig-a"))
    ∧ (signDocument tagusVersion ⟨"body", .array [Proof.mk none none "sig-a"]⟩ none
          (fun _ _ => Proof.mk none none "sig-new") (fun _ => "tok") "u0" "u1" "u2"
        = .ok (.doc ⟨"body", .array
            [Proof.mk (some ("urn:uuid:" ++ "u1")) none "sig-a",
             Proof.mk (some ("urn:uuid:" ++ "u2")) (some ("urn:uuid:" ++ "u1")) "sig-new"]⟩)
      ∧ signDocument tagusVersion ⟨"body", .single (Proof.mk none none "sig-a")⟩ none
          (fun _ _ => Proof.mk none none "sig-new") (fun _ => "tok") "u0" "u1" "u2"
        = .ok (.doc ⟨"body", .array
            [Proof.mk (some ("urn:uuid:" ++ "u1")) none "sig-a",
             Proof.mk (some ("urn:uuid:" ++ "u2")) (some ("urn:uuid:" ++ "u1")) "sig-new"]⟩)
      ∧ ([Proof.mk (some ("urn:uuid:" ++ "u1")) none "sig-a",
          Proof.mk (some ("urn:uuid:" ++ "u2")) (some ("urn:uuid:" ++ "u1")) "sig-new"]).length = 2
      ∧ (Proof.mk (some ("urn:uuid:" ++ "u2")) (some ("urn:uuid:" ++ "u1")) "sig-new").previousProof
          = some ("urn:uuid:" ++ "u1")) :=
  ⟨rfl,
   tagus_chain_extension "body" [Proof.mk none none "sig-a"] (Proof.mk none none "sig-a")
     (Proof.mk none none "sig-a") (fun _ _ => Proof.mk none none "sig-new") (fun _ => "tok")
     "u0" "u1" "u2" rfl⟩

/-- C1 counterexample: under the Loire strategy the chain-extension path
produces a compact token whose `proof` is `undefined`, so assigning the new
proof's id throws a TypeError — sign does not return an N+1-proof document,
falsifying the claim for that strategy. -/
theorem loire_chain_extension_cex :
    signDocument loireVersion ⟨"body", .array [Proof.mk (some "p-1") none "sig-1"]⟩ none
      (fun _ _ => Proof.mk none none "sig-new") (fun _ => "jwt-token") "u0" "u1" "u2"
      = .error .typeError := rfl

theorem filter_pred_length_eq (q : String → Bool) :
    ∀ ps : List Proof,
      (ps.filter (fun p => match p.id with | some x => q x | none => false)).length
        = ((ps.filterMap Proof.id).filter q).length
  | [] => rfl
  | p :: rest => by
    have ih := filter_pred_length_eq q rest
    cases hid : p.id with
    | none =>
      simp only [List.filter_cons, List.filterMap_cons, hid]
      exact ih
    | some x =>
      simp only [List.filter_cons, List.filterMap_cons, hid]
      cases hq : q x
      · simp only [Bool.false_eq_true, if_false]
        exact ih
      · simp only [if_true, List.length_cons, ih]

theorem matched_length_lt (ps : List Proof) (ids : List String) (i : String)
    (hnodup : (ps.filterMap Proof.id).Nodup) (hmem : i ∈ ids)
    (habsent : ∀ p ∈ ps, p.id ≠ some i) :
    (ps.filter (fun p => match p.id with | some x => ids.contains x | none => false)).length
      < ids.length := by
  rw [filter_pred_length_eq (fun x => ids.contains x) ps]
  have hFnd : ((ps.filterMap Proof.id).filter (fun x => ids.contains x)).Nodup :=
    hnodup.filter _
  have hsub : ((ps.filterMap Proof.id).filter (fun x => ids.contains x)).toFinset
      ⊆ ids.toFinset.erase i := by
    intro x hx
    rw [List.mem_toFinset] at hx
    have hxL : x ∈ ps.filterMap Proof.id := List.mem_of_mem_filter hx
    have hxids : x ∈ ids := by
      have hc := List.of_mem_filter hx
      exact List.elem_iff.mp (by simpa using hc)
    have hxi : x ≠ i := by
      rcases List.mem_filterMap.mp hxL with ⟨p, hp, hpid⟩
      intro he
      exact habsent p hp (he ▸ hpid)
    exact Finset.mem_erase.mpr ⟨hxi, List.mem_toFinset.mpr hxids⟩
  have h1 : ((ps.filterMap Proof.id).filter (fun x => ids.contains x)).length
      = ((ps.filterMap Proof.id).filter (fun x => ids.contains x)).toFinset.card :=
    (List.toFinset_card_of_nodup hFnd).symm
  have h2 := Finset.card_le_card hsub
  have h3 : (ids.toFinset.erase i).card = ids.toFinset.card - 1 :=
    Finset.card_erase_of_mem (List.mem_toFinset.mpr hmem)
  have h4 : 0 < ids.toFinset.card :=
    Finset.card_pos.mpr ⟨i, List.mem_toFinset.mpr hmem⟩
  have h5 : ids.toFinset.card ≤ ids.length := ids.toFinset_card_le
  omega

/-- C2 (amended): for any version and any document with an existing proof
array, a single-id selector matching no proof always fails with
`PreviousProofNotFoundError` — no distinctness assumption, so documents with
duplicated proof ids are covered too.  A list selector fails whenever the
number of matching proofs differs from the number of requested ids; in
particular it fails for any absent requested id once the existing proofs' ids
are pairwise distinct (with duplicated proof ids the match-count check can be
fooled — see the counterexample).  The pure model returns only the error, so
the original document is untouched on this path. -/
theorem previous_proof_selector_absent_fails (version body : String) (ps : List Proof)
    (i : String) (ids : List String)
    (se : Credential → String → Proof) (je : Credential → String) (u0 u1 u2 : String)
    (habsent : ps.all (fun p => !(p.id == some i)) = true)
    (hmem : i ∈ ids) :
    signDocument version ⟨body, .array ps⟩ (some (.single i)) se je u0 u1 u2
      = .error .previousProofNotFound
    ∧ ((ps.filter (fun p =>
          match p.id with
          | some x => ids.contains x
          | none => false)).length ≠ ids.length →
        signDocument version ⟨body, .array ps⟩ (some (.list ids)) se je u0 u1 u2
          = .error .previousProofNotFound)
    ∧ ((ps.filterMap Proof.id).Nodup →
        signDocument version ⟨body, .array ps⟩ (some (.list ids)) se je u0 u1 u2
          = .error .previousProofNotFound) := by
  have habs : ∀ p ∈ ps, p.id ≠ some i := by
    intro p hp
    have hb := List.all_eq_true.mp habsent p hp
    simpa using hb
  have hcount : (ps.filter (fun p =>
      match p.id with
      | some x => ids.contains x
      | none => false)).length ≠ ids.length →
      signDocument version ⟨body, .array ps⟩ (some (.list ids)) se je u0 u1 u2
        = .error .previousProofNotFound := by
    intro hne
    show signCredentialWithExistingProofs ⟨body, .array ps⟩ version
      (some (.list ids)) se je u0 u1 u2 = _
    simp only [signCredentialWithExistingProofs]
    rw [if_pos hne]
  refine ⟨?_, hcount, ?_⟩
  · have hm : ps.filter (fun p => p.id == some i) = [] := by
      rw [List.filter_eq_nil_iff]
      intro p hp
      simpa using habs p hp
    show signCredentialWithExistingProofs ⟨body, .array ps⟩ version
      (some (.single i)) se je u0 u1 u2 = _
    simp only [signCredentialWithExistingProofs]
    rw [hm]
    rfl
  · intro hnodup
    exact hcount (Nat.ne_of_lt (matched_length_lt ps ids i hnodup hmem habs))

/-- Witness for C2: two distinct-id proofs and an absent requested id; every
conjunct's premise is true at this input. -/
theorem previous_proof_selector_absent_fails_witness :
    ([Proof.mk (some "a") none "s1", Proof.mk (some "b") none "s2"].all
        (fun p => !(p.id == some "c")) = true)
    ∧ ("c" ∈ ["c"])
    ∧ (signDocument tagusVersion
          ⟨"body", .array [Proof.mk (some "a") none "s1", Proof.mk (some "b") none "s2"]⟩
          (some (.single "c")) (fun _ _ => Proof.mk none none "sig-new") (fun _ => "tok")
          "u0" "u1" "u2" = .error .previousProofNotFound
      ∧ (([Proof.mk (some "a") none "s1", Proof.mk (some "b") none "s2"].filter (fun p =>
            match p.id with
            | some x => ["c"].contains x
            | none => false)).length ≠ (["c"] : List String).length →
          signDocument tagusVersion
            ⟨"body", .array [Proof.mk (some "a") none "s1", Proof.mk (some "b") none "s2"]⟩
            (some (.list ["c"])) (fun _ _ => Proof.mk none none "sig-new") (fun _ => "tok")
            "u0" "u1" "u2" = .error .previousProofNotFound)
      ∧ (([Proof.mk (some "a") none "s1", Proof.mk (some "b") none "s2"].filterMap
            Proof.id).Nodup →
          signDocument tagusVersion
            ⟨"body", .array [Proof.mk (some "a") none "s1", Proof.mk (some "b") none "s2"]⟩
            (some (.list ["c"])) (fun _ _ => Proof.mk none none "sig-new") (fun _ => "tok")
            "u0" "u1" "u2" = .error .previousProofNotFound)) :=
  ⟨by decide, List.Mem.head _,
   previous_proof_selector_absent_fails tagusVersion "body"
     [Proof.mk (some "a") none "s1", Proof.mk (some "b") none "s2"] "c" ["c"]
     (fun _ _ => Proof.mk none none "sig-new") (fun _ => "tok") "u0" "u1" "u2"
     (by decide) (List.Mem.head _)⟩

/-- C2 counterexample: with duplicated proof ids (`"a"`, `"a"`) and the
selector `["a", "b"]`, the requested id `"b"` matches no proof, yet the
match-count check (2 matches = 2 requested) passes and `sign` returns
successfully instead of failing with `PreviousProofNotFoundError` — the claim
as stated is false on the code. -/
theorem previous_proof_selector_duplicate_ids_cex :
    ([Proof.mk (some "a") none "s1", Proof.mk (some "a") none "s2"].filterMap
        Proof.id).contains "b" = false
    ∧ ("b" ∈ ["a", "b"])
    ∧ signDocument tagusVersion
        ⟨"body", .array [Proof.mk (some "a") none "s1", Proof.mk (some "a") none "s2"]⟩
        (some (.list ["a", "b"])) (fun _ _ => Proof.mk none none "sig-new")
        (fun _ => "tok") "u0" "u1" "u2"
      = .ok (.doc ⟨"body", .array
          [Proof.mk (some "a") none "s1", Proof.mk (some "a") none "s2",
           Proof.mk (some ("urn:uuid:" ++ "u2")) (some "a") "sig-new"]⟩) :=
  ⟨rfl, List.Mem.tail _ (List.Mem.head _), rfl⟩
